import Mathlib

/-!
# Secure file-upload server: a shallow embedding

This file embeds the validation pipeline of the Flask upload server
(`src/server/python-flask/app.py`) and proves the specified properties of its
components: the path guard `is_path_safe`, the type policy
`is_allowed_file_type`, the name sanitizer `generate_secure_filename`, the size
check `validate_file_size`, the content hash `calculate_file_hash` (a concrete
SHA-256), and the orchestrating handler `upload_file`.

Strings are modelled as lists of characters (`Str`), so every operation is an
executable structural function the kernel can evaluate.  Python's `str.lower`
and Werkzeug's NFKD/ASCII normalisation are modelled at the ASCII level (the
allow-lists and every concrete input considered are ASCII).  Filesystem and
library effects (`os.path.getsize`, libmagic, the scanner verdict, I/O faults)
enter through an explicit environment record, so the handler itself is a pure
function of the request and that environment.
-/

namespace UploadServer

/-- Python strings, modelled as lists of characters. -/
abbrev Str := List Char

/-- Coerce a Lean string literal into the `Str` model. -/
def str (s : String) : Str := s.data

/-! ## Generic string helpers (Python primitives) -/

/-- `startsWithL s p` is Python's `s.startswith(p)`. -/
def startsWithL : Str → Str → Bool
  | _, [] => true
  | [], _ :: _ => false
  | c :: cs, p :: ps => c == p && startsWithL cs ps

/-- `endsWithL s p` is Python's `s.endswith(p)`. -/
def endsWithL (s p : Str) : Bool := startsWithL s.reverse p.reverse

/-- Python's `s.split(sep)` for a one-character separator: splits at every
occurrence, keeping empty fields. -/
def splitChar (sep : Char) : Str → List Str
  | [] => [[]]
  | c :: rest =>
    match splitChar sep rest with
    | [] => if c == sep then [[], []] else [[c]]
    | s :: ss => if c == sep then [] :: s :: ss else (c :: s) :: ss

/-- Split at every character satisfying `p`, keeping empty fields. -/
def splitPred (p : Char → Bool) : Str → List Str
  | [] => [[]]
  | c :: rest =>
    match splitPred p rest with
    | [] => if p c then [[], []] else [[c]]
    | s :: ss => if p c then [] :: s :: ss else (c :: s) :: ss

/-- Python whitespace recognised by `str.split()` (ASCII fragment). -/
def isPySpace (c : Char) : Bool :=
  c == ' ' || c == '\t' || c == '\n' || c == '\r' || c == '\x0b' || c == '\x0c'

/-- Python's `s.split()` with no argument: split on whitespace runs, dropping
empty fields. -/
def splitWS (s : Str) : List Str := (splitPred isPySpace s).filter (· ≠ [])

/-- `sep.join(parts)`, Python's `str.join`. -/
def joinWith (sep : Str) : List Str → Str
  | [] => []
  | [s] => s
  | s :: rest => s ++ sep ++ joinWith sep rest

/-- Python's `s.strip(chars)`: remove leading and trailing characters
satisfying `p`. -/
def stripWhile (p : Char → Bool) (s : Str) : Str :=
  ((s.dropWhile p).reverse.dropWhile p).reverse

/-- Python's `str.rfind(c)`: index of the last occurrence, `-1` when absent. -/
def rfindC (c : Char) (s : Str) : Int :=
  match (s.reverse.findIdx? (· == c)) with
  | none => -1
  | some i => (s.length : Int) - 1 - i

/-- ASCII `str.lower` on one character (the only case the allow-lists need). -/
def lowerChar (c : Char) : Char :=
  if 65 ≤ c.toNat ∧ c.toNat ≤ 90 then Char.ofNat (c.toNat + 32) else c

/-- ASCII `str.lower`. -/
def lowerStr (s : Str) : Str := s.map lowerChar

/-! ## `os.path` (posixpath) primitives used by the server -/

/-- `posixpath.join(a, b)` for two components. -/
def pjoin (a b : Str) : Str :=
  if startsWithL b (str "/") then b
  else if a = [] ∨ endsWithL a (str "/") then a ++ b
  else a ++ str "/" ++ b

/-- `posixpath.isabs`. -/
def isabs (p : Str) : Bool := startsWithL p (str "/")

/-- One step of `posixpath.normpath`'s component loop. -/
def normpathStep (initialSlashes : Nat) (acc : List Str) (comp : Str) : List Str :=
  if comp = [] ∨ comp = str "." then acc
  else if comp ≠ str ".." ∨ (initialSlashes = 0 ∧ acc = []) ∨
      acc.getLast? = some (str "..") then acc ++ [comp]
  else acc.dropLast

/-- `posixpath.normpath`: collapse `.`, `..` and repeated separators, purely
lexically, preserving POSIX's special treatment of exactly two leading
slashes. -/
def normpath (path : Str) : Str :=
  if path = [] then str "."
  else
    let initialSlashes : Nat :=
      if startsWithL path (str "/") then
        if startsWithL path (str "//") ∧ ¬ startsWithL path (str "///") then 2
        else 1
      else 0
    let comps := splitChar '/' path
    let newComps := comps.foldl (normpathStep initialSlashes) []
    let body := List.replicate initialSlashes '/' ++ joinWith (str "/") newComps
    if body = [] then str "." else body

/-- `posixpath.abspath`, with the process working directory `cwd` explicit. -/
def abspath (cwd p : Str) : Str :=
  if isabs p then normpath p else normpath (pjoin cwd p)

/-- `os.path.splitext`: split off the extension at the last dot, unless every
character between the last path separator and that dot is itself a dot. -/
def splitext (p : Str) : Str × Str :=
  let sepIndex := rfindC '/' p
  let dotIndex := rfindC '.' p
  if dotIndex > sepIndex then
    let between := (p.drop (sepIndex + 1).toNat).take (dotIndex - sepIndex - 1).toNat
    if between.any (· ≠ '.') then
      (p.take dotIndex.toNat, p.drop dotIndex.toNat)
    else (p, [])
  else (p, [])

/-! ## PathGuard: `is_path_safe` (app.py lines 129–140) -/

/-- `is_path_safe(file_path, base_directory)`: the server's traversal check.
It canonicalises both paths with `os.path.abspath` and then tests the plain
string-prefix relation `abs_file.startswith(abs_base)`. -/
def is_path_safe (cwd : Str) (file_path base_directory : Str) : Bool :=
  startsWithL (abspath cwd file_path) (abspath cwd base_directory)

/-- Modelled from the spec's words (§4.2): the candidate's canonical form is
the storage root itself or a proper descendant of it (root followed by a path
separator).  Stated only to compare `is_path_safe` against the specified
containment relation. -/
def isWithinRoot (cwd : Str) (file_path base_directory : Str) : Bool :=
  let af := abspath cwd file_path
  let ab := abspath cwd base_directory
  af == ab || startsWithL af (ab ++ str "/")

/-! ## NameSanitizer: `secure_filename` (werkzeug) and
`generate_secure_filename` (app.py lines 103–126) -/

/-- The character class kept by Werkzeug's filename filter and required by the
spec's safe-character invariant: `[A-Za-z0-9._-]`. -/
def isSecureChar (c : Char) : Bool :=
  c.isAlphanum || c == '_' || c == '.' || c == '-'

/-- `werkzeug.utils.secure_filename` on POSIX: normalise to ASCII (NFKD +
ASCII-ignore, modelled as dropping non-ASCII characters), turn path separators
into spaces, join the whitespace-split words with underscores, delete every
character outside `[A-Za-z0-9_.-]`, and strip leading/trailing dots and
underscores. -/
def secure_filename (filename : Str) : Str :=
  let ascii := filename.filter (fun c => c.toNat < 128)
  let noSep := ascii.map (fun c => if c == '/' then ' ' else c)
  let joined := joinWith (str "_") (splitWS noSep)
  stripWhile (fun c => c == '.' || c == '_') (joined.filter isSecureChar)

/-- Lowercase hexadecimal digit for a value below 16. -/
def hexDigit (n : Nat) : Char :=
  if n < 10 then Char.ofNat (48 + n) else Char.ofNat (97 + (n - 10))

/-- A lowercase hexadecimal character, `[0-9a-f]`. -/
def isLowerHex (c : Char) : Bool :=
  c.isDigit || (decide (97 ≤ c.toNat) && decide (c.toNat ≤ 102))

/-- Two lowercase hex digits of one byte. -/
def byteHex (b : Nat) : Str := [hexDigit (b % 256 / 16), hexDigit (b % 16)]

/-- `secrets.token_hex` applied to the given random bytes: their lowercase
hexadecimal encoding. -/
def token_hex (bs : List Nat) : Str := (bs.map byteHex).flatten

/-- `generate_secure_filename(original_filename)` (app.py lines 103–126), with
the two effectful inputs explicit: `timestamp` is
`datetime.now().strftime('%Y%m%d_%H%M%S')` and `randomBytes` are the 8 random
bytes drawn by `secrets.token_hex(8)`.  Sanitises the name, splits off the
extension, truncates the base to 50 characters (defaulting to `"file"` when
empty), and appends `_timestamp_randomhex` before reattaching the extension. -/
def generate_secure_filename (timestamp : Str) (randomBytes : List Nat)
    (original_filename : Str) : Str :=
  let safe_name := secure_filename original_filename
  let ne := splitext safe_name
  let random_hash := token_hex randomBytes
  let name := if ne.1 ≠ [] then ne.1.take 50 else str "file"
  name ++ str "_" ++ timestamp ++ str "_" ++ random_hash ++ ne.2

/-- The base-name part `generate_secure_filename` puts in front of its
suffix: the sanitized base truncated to 50 characters, or `"file"` when the
sanitized base is empty (`name[:50] if name else 'file'`). -/
def basePart (original_filename : Str) : Str :=
  let base := (splitext (secure_filename original_filename)).1
  if base ≠ [] then base.take 50 else str "file"

/-! ## Allow-lists and TypePolicy: `is_allowed_file_type`
(app.py lines 43–54 and 81–100) -/

/-- `ALLOWED_EXTENSIONS` (app.py line 43). -/
def ALLOWED_EXTENSIONS : List Str :=
  [str ".pdf", str ".doc", str ".docx", str ".txt",
   str ".jpg", str ".jpeg", str ".png", str ".gif"]

/-- `ALLOWED_MIME_TYPES` (app.py lines 46–54): MIME type → extensions
registered for it. -/
def ALLOWED_MIME_TYPES : List (Str × List Str) :=
  [(str "application/pdf", [str ".pdf"]),
   (str "application/msword", [str ".doc"]),
   (str "application/vnd.openxmlformats-officedocument.wordprocessingml.document",
     [str ".docx"]),
   (str "text/plain", [str ".txt"]),
   (str "image/jpeg", [str ".jpg", str ".jpeg"]),
   (str "image/png", [str ".png"]),
   (str "image/gif", [str ".gif"])]

/-- Python `dict` lookup on the association list. -/
def lookupAL (m : List (Str × List Str)) (k : Str) : Option (List Str) :=
  match m with
  | [] => none
  | (k1, v) :: rest => if k1 = k then some v else lookupAL rest k

/-- The lowercased extension of a filename, `os.path.splitext(f)[1].lower()`. -/
def extLow (filename : Str) : Str := lowerStr (splitext filename).2

/-- Reason string of TypePolicy check 1 (app.py line 90). -/
def reasonExt (filename : Str) : Str :=
  str "Extension " ++ extLow filename ++ str " not allowed"

/-- Reason string of TypePolicy check 2 (app.py line 94). -/
def reasonMime (detected_mime : Str) : Str :=
  str "MIME type " ++ detected_mime ++ str " not allowed"

/-- Reason string of TypePolicy check 3 (app.py line 98). -/
def reasonMismatch (filename detected_mime : Str) : Str :=
  str "Extension " ++ extLow filename ++
    str " does not match detected MIME type " ++ detected_mime

/-- `is_allowed_file_type(filename, detected_mime)` (app.py lines 81–100):
extension allow-list, MIME-key allow-list, then extension-for-MIME
cross-check, short-circuiting with a distinct reason at the first failure. -/
def is_allowed_file_type (filename detected_mime : Str) : Bool × Option Str :=
  let ext := extLow filename
  if ¬ ALLOWED_EXTENSIONS.contains ext then
    (false, some (reasonExt filename))
  else
    match lookupAL ALLOWED_MIME_TYPES detected_mime with
    | none => (false, some (reasonMime detected_mime))
    | some exts =>
      if ¬ exts.contains ext then
        (false, some (reasonMismatch filename detected_mime))
      else (true, none)

/-! ## TypeSniffer and SizeGuard (app.py lines 67–78 and 176–185) -/

/-- `get_file_magic_type(file_path)` (app.py lines 67–78): return the MIME
string produced by libmagic, or `None` when the library call raises.  The
libmagic call's outcome is the explicit argument `magicCall`. -/
def get_file_magic_type (magicCall : Except Str Str) : Option Str :=
  match magicCall with
  | .ok detected_mime => some detected_mime
  | .error _ => none

/-- `validate_file_size(file_path, max_size)` (app.py lines 176–185):
`os.path.getsize` re-measures the file on disk (its outcome is the explicit
argument `sizeResult`, `none` when it raises); within-limit is `size ≤ max`,
and any error yields `(False, 0)`. -/
def validate_file_size (sizeResult : Option Nat) (max_size : Nat) : Bool × Nat :=
  match sizeResult with
  | some file_size => (decide (file_size ≤ max_size), file_size)
  | none => (false, 0)

/-- `MAX_FILE_SIZE` (app.py line 42): 10 MiB. -/
def MAX_FILE_SIZE : Nat := 10 * 1024 * 1024

/-! ## IntegrityHasher: SHA-256 and `calculate_file_hash`
(app.py lines 143–153)

`hashlib.sha256` is embedded concretely (FIPS 180-4), with 32-bit words as
naturals reduced modulo `2^32`. -/

/-- Reduce to a 32-bit word. -/
def w32 (n : Nat) : Nat := n % 4294967296

/-- 32-bit modular addition. -/
def add32 (a b : Nat) : Nat := (a + b) % 4294967296

/-- Right rotation of a 32-bit word. -/
def rotr (n x : Nat) : Nat := w32 ((x >>> n) ||| (x <<< (32 - n)))

/-- Bitwise complement of a 32-bit word. -/
def not32 (x : Nat) : Nat := 4294967295 - w32 x

/-- SHA-256 `Ch(x,y,z)`. -/
def shaCh (x y z : Nat) : Nat := (x &&& y) ^^^ (not32 x &&& z)

/-- SHA-256 `Maj(x,y,z)`. -/
def shaMaj (x y z : Nat) : Nat := (x &&& y) ^^^ (x &&& z) ^^^ (y &&& z)

/-- SHA-256 `Σ0`. -/
def bigSigma0 (x : Nat) : Nat := rotr 2 x ^^^ rotr 13 x ^^^ rotr 22 x

/-- SHA-256 `Σ1`. -/
def bigSigma1 (x : Nat) : Nat := rotr 6 x ^^^ rotr 11 x ^^^ rotr 25 x

/-- SHA-256 `σ0`. -/
def smallSigma0 (x : Nat) : Nat := rotr 7 x ^^^ rotr 18 x ^^^ (x >>> 3)

/-- SHA-256 `σ1`. -/
def smallSigma1 (x : Nat) : Nat := rotr 17 x ^^^ rotr 19 x ^^^ (x >>> 10)

/-- The 64 SHA-256 round constants (FIPS 180-4 §4.2.2, written in decimal). -/
def shaK : List Nat :=
  [1116352408, 1899447441, 3049323471, 3921009573,
   961987163, 1508970993, 2453635748, 2870763221,
   3624381080, 310598401, 607225278, 1426881987,
   1925078388, 2162078206, 2614888103, 3248222580,
   3835390401, 4022224774, 264347078, 604807628,
   770255983, 1249150122, 1555081692, 1996064986,
   2554220882, 2821834349, 2952996808, 3210313671,
   3336571891, 3584528711, 113926993, 338241895,
   666307205, 773529912, 1294757372, 1396182291,
   1695183700, 1986661051, 2177026350, 2456956037,
   2730485921, 2820302411, 3259730800, 3345764771,
   3516065817, 3600352804, 4094571909, 275423344,
   430227734, 506948616, 659060556, 883997877,
   958139571, 1322822218, 1537002063, 1747873779,
   1955562222, 2024104815, 2227730452, 2361852424,
   2428436474, 2756734187, 3204031479, 3329325298]

/-- The SHA-256 initial hash value (FIPS 180-4 §5.3.3, written in decimal). -/
def shaH0 : List Nat :=
  [1779033703, 3144134277, 1013904242, 2773480762,
   1359893119, 2600822924, 528734635, 1541459225]

/-- Structural worker for `chunks`: `fuel` bounds the number of blocks. -/
def chunksAux (n : Nat) : Nat → List α → List (List α)
  | 0, _ => []
  | _ + 1, [] => []
  | fuel + 1, a :: t => (a :: t).take n :: chunksAux n fuel ((a :: t).drop n)

/-- Split a list into consecutive blocks of `n` elements (the last may be
shorter); the blocks a 4096-byte file read or a 64-byte SHA block walk visits. -/
def chunks (n : Nat) (l : List α) : List (List α) :=
  if n == 0 then [] else chunksAux n l.length l

/-- Big-endian 32-bit words of a 64-byte block. -/
def bytesToWords (block : List Nat) : List Nat :=
  (chunks 4 block).map fun c =>
    c.foldl (fun acc b => acc * 256 + b % 256) 0

/-- Extend the 16 message words by one scheduled word. -/
def extendStep (ws : List Nat) : List Nat :=
  let l := ws.length
  ws ++ [add32 (add32 (smallSigma1 (ws.getD (l - 2) 0)) (ws.getD (l - 7) 0))
           (add32 (smallSigma0 (ws.getD (l - 15) 0)) (ws.getD (l - 16) 0))]

/-- The full 64-word message schedule of one block. -/
def schedule (block : List Nat) : List Nat :=
  Nat.iterate extendStep 48 (bytesToWords block)

/-- One SHA-256 round on the eight working variables. -/
def shaRound (st : List Nat) (kw : Nat × Nat) : List Nat :=
  match st with
  | [a, b, c, d, e, f, g, h] =>
    let t1 := add32 h (add32 (bigSigma1 e) (add32 (shaCh e f g) (add32 kw.1 kw.2)))
    let t2 := add32 (bigSigma0 a) (shaMaj a b c)
    [add32 t1 t2, a, b, c, add32 d t1, e, f, g]
  | st => st

/-- SHA-256 compression of one 64-byte block into the chaining value. -/
def shaCompress (hv : List Nat) (block : List Nat) : List Nat :=
  let final := (shaK.zip (schedule block)).foldl shaRound hv
  List.zipWith add32 hv final

/-- SHA-256 padding: `0x80`, zeros to 56 mod 64, then the 64-bit big-endian
bit length. -/
def shaPad (msg : List Nat) : List Nat :=
  let L := msg.length
  let zeros := (119 - L % 64) % 64
  msg ++ [128] ++ List.replicate zeros 0 ++
    ((List.range 8).map fun i => ((8 * L) >>> (8 * (7 - i))) % 256)

/-- SHA-256 of a byte string, as eight 32-bit words. -/
def sha256 (msg : List Nat) : List Nat :=
  (chunks 64 (shaPad msg)).foldl shaCompress shaH0

/-- Eight lowercase hex digits of one 32-bit word. -/
def wordHex (w : Nat) : Str :=
  (List.range 8).map fun i => hexDigit (w >>> (4 * (7 - i)) % 16)

/-- `hashlib.sha256(...).hexdigest()`: the lowercase hexadecimal digest. -/
def sha256hex (msg : List Nat) : Str := ((sha256 msg).map wordHex).flatten

/-- `calculate_file_hash(file_path)` (app.py lines 143–153): feed the file to
the hash in 4096-byte reads and return the lowercase hex digest.  The
incremental `update` calls concatenate the chunks, so the digest is SHA-256 of
exactly the bytes the reads produced. -/
def calculate_file_hash (content : List Nat) : Str :=
  sha256hex ((chunks 4096 content).foldl (fun acc chunk => acc ++ chunk) [])

/-! ## UploadPipeline: `upload_file` (app.py lines 223–348)

The handler is embedded as a pure function of the request and an environment
record carrying every external effect it consults: the upload folder and
working directory, the timestamp and random bytes drawn while generating the
storage name, the `os.path.getsize` outcome, the libmagic outcome, the scanner
verdict, whether the hashing stage raises, and the stored bytes. -/

/-- The scanner verdict, `{'clean': bool, 'threats': [...]}` (app.py 156–173). -/
structure ScanVerdict where
  clean : Bool
  threats : List Str
  deriving DecidableEq

/-- The multipart request as the handler sees it: whether a `file` field is
present, its filename, and the size the client declared for it (which the
handler never reads). -/
structure UploadRequest where
  hasFile : Bool
  filename : Str
  declaredSize : Option Nat
  deriving DecidableEq

deriving instance DecidableEq for Except

/-- External effects consulted by one run of `upload_file`. -/
structure UploadEnv where
  /-- `app.config['UPLOAD_FOLDER']`. -/
  uploadFolder : Str
  /-- The process working directory used by `os.path.abspath`. -/
  cwd : Str
  /-- `datetime.now().strftime('%Y%m%d_%H%M%S')`. -/
  timestamp : Str
  /-- The 8 random bytes drawn by `secrets.token_hex(8)`. -/
  randomBytes : List Nat
  /-- Outcome of `os.path.getsize` on the stored file (`none` = raises). -/
  diskSize : Option Nat
  /-- Outcome of the libmagic call (`error` = the library raises). -/
  magicCall : Except Str Str
  /-- The scanner verdict.  `scan_file_for_viruses` in the source is a
  placeholder that ignores the path and returns `{'clean': True, 'threats':
  []}`; the verdict is kept as an environment field to cover the pluggable
  scanner contract, the source binding being `⟨true, []⟩`. -/
  scanResult : ScanVerdict
  /-- Whether the hashing stage raises (an unexpected I/O fault caught by the
  handler's inner `except`). -/
  hashRaises : Bool
  /-- The stored file's bytes. -/
  content : List Nat
  deriving DecidableEq

/-- `scan_file_for_viruses(file_path)` (app.py lines 156–173): the pipeline's
opaque verdict source, read from the environment (see `UploadEnv.scanResult`). -/
def scan_file_for_viruses (env : UploadEnv) : ScanVerdict := env.scanResult

/-- One rejection (or failure) reason per `return` site of `upload_file`,
standing for the distinct response message produced there. -/
inductive Reason where
  /-- "No file provided" (400). -/
  | noFile
  /-- "No file selected" (400). -/
  | noFilename
  /-- "File type not allowed. ..." (400). -/
  | extNotAllowed
  /-- "Invalid file path" (400). -/
  | unsafePath
  /-- "File size (...) exceeds maximum allowed size (...)" (400), carrying the
  size reported by `validate_file_size`. -/
  | oversize (size : Nat)
  /-- "Could not verify file type" (400). -/
  | undetectableType
  /-- The `error_msg` of `is_allowed_file_type` (400). -/
  | typeNotAllowed (msg : Option Str)
  /-- "File failed security scan" (400). -/
  | scanFailed
  /-- "Upload failed. Please try again." (500). -/
  | serverError
  deriving DecidableEq

/-- The success payload of the 200 response. -/
structure StoredData where
  /-- The generated storage name (the `/api/files/...` URL tail). -/
  secureName : Str
  /-- `size`: the re-measured byte count. -/
  size : Nat
  /-- `mime_type`: the sniffed MIME type. -/
  mimeType : Str
  /-- `hash`: the reported content digest. -/
  hash : Str
  deriving DecidableEq

/-- What one run of `upload_file` produces and leaves behind: the HTTP status,
the success flag, the rejection reason (if any), the success payload (if any),
whether bytes were written to the storage root for this attempt, and whether
the generated storage path still exists once the response is produced. -/
structure UploadOutcome where
  status : Nat
  success : Bool
  reason : Option Reason
  data : Option StoredData
  fileSaved : Bool
  fileExists : Bool
  deriving DecidableEq

/-- The pre-write extension gate (app.py lines 247–248):
`os.path.splitext(file.filename)[1].lower() in ALLOWED_EXTENSIONS`. -/
def upload_ext_gate (filename : Str) : Bool :=
  ALLOWED_EXTENSIONS.contains (extLow filename)

/-- The post-write validation stages, the handler's inner `try` block (app.py
lines 273–335), entered right after `file.save(file_path)`: size re-check,
magic sniffing with Python's falsiness test on the result, type policy, virus
scan, then hashing and the success response.  Every rejection here happens
after the bytes were written (`fileSaved = true`) and calls `cleanup_file`
(app.py 197–204) before responding (`fileExists = false`); an exception in a
stage (modelled by `env.hashRaises`) is cleaned up by the inner `except`
before the outer handler produces the generic 500. -/
def upload_post_write (req : UploadRequest) (env : UploadEnv)
    (secure_name : Str) : UploadOutcome :=
  let sv := validate_file_size env.diskSize MAX_FILE_SIZE
  if sv.1 = false then
    ⟨400, false, some (.oversize sv.2), none, true, false⟩
  else
    match get_file_magic_type env.magicCall with
    | none => ⟨400, false, some .undetectableType, none, true, false⟩
    | some detected_mime =>
      if detected_mime = [] then
        ⟨400, false, some .undetectableType, none, true, false⟩
      else
        let tv := is_allowed_file_type req.filename detected_mime
        if tv.1 = false then
          ⟨400, false, some (.typeNotAllowed tv.2), none, true, false⟩
        else if (scan_file_for_viruses env).clean = false then
          ⟨400, false, some .scanFailed, none, true, false⟩
        else if env.hashRaises then
          ⟨500, false, some .serverError, none, true, false⟩
        else
          ⟨200, true, none,
            some ⟨secure_name, sv.2, detected_mime, calculate_file_hash env.content⟩,
            true, true⟩

/-- `upload_file()` (app.py lines 223–348): the full handler.  Checks run in
source order — file present, filename non-empty, extension gate, storage name
generation, path safety, then `file.save` followed by the post-write stages of
`upload_post_write`. -/
def upload_file (req : UploadRequest) (env : UploadEnv) : UploadOutcome :=
  if req.hasFile = false then
    ⟨400, false, some .noFile, none, false, false⟩
  else if req.filename = [] then
    ⟨400, false, some .noFilename, none, false, false⟩
  else if upload_ext_gate req.filename = false then
    ⟨400, false, some .extNotAllowed, none, false, false⟩
  else
    let secure_name := generate_secure_filename env.timestamp env.randomBytes req.filename
    let file_path := pjoin env.uploadFolder secure_name
    if is_path_safe env.cwd file_path env.uploadFolder = false then
      ⟨400, false, some .unsafePath, none, false, false⟩
    else
      upload_post_write req env secure_name

/-! ## Concrete request and environments used to exercise the pipeline -/

/-- A well-formed request: a present file named `photo.jpg` with a declared
size of 2048 bytes. -/
def reqW : UploadRequest := ⟨true, str "photo.jpg", some 2048⟩

/-- An environment in which every stage passes: a 3-byte JPEG-sniffed file. -/
def envAccept : UploadEnv :=
  ⟨str "/app/uploads", str "/app", str "20240101_000000", [0, 1, 2, 3, 4, 5, 6, 7],
   some 3, Except.ok (str "image/jpeg"), ⟨true, []⟩, false, [97, 98, 99]⟩

/-- An environment whose stored file measures one byte over the ceiling. -/
def envOversize : UploadEnv :=
  ⟨str "/app/uploads", str "/app", str "20240101_000000", [0, 1, 2, 3, 4, 5, 6, 7],
   some (MAX_FILE_SIZE + 1), Except.ok (str "image/jpeg"), ⟨true, []⟩, false, []⟩

/-- An environment in which the libmagic call raises. -/
def envNoMagic : UploadEnv :=
  ⟨str "/app/uploads", str "/app", str "20240101_000000", [0, 1, 2, 3, 4, 5, 6, 7],
   some 3, Except.error (str "magic failed"), ⟨true, []⟩, false, [97, 98, 99]⟩

/-- An environment in which `os.path.getsize` raises. -/
def envNoSize : UploadEnv :=
  ⟨str "/app/uploads", str "/app", str "20240101_000000", [0, 1, 2, 3, 4, 5, 6, 7],
   none, Except.ok (str "image/jpeg"), ⟨true, []⟩, false, [97, 98, 99]⟩

end UploadServer

namespace UploadServer

/-! ## Helper lemmas -/

theorem chunksAux_foldl_append {α : Type} (n : Nat) (hn : 0 < n) :
    ∀ (fuel : Nat) (l acc : List α), l.length ≤ fuel →
      (chunksAux n fuel l).foldl (fun a c => a ++ c) acc = acc ++ l := by
  intro fuel
  induction fuel with
  | zero =>
    intro l acc h
    have : l = [] := List.eq_nil_of_length_eq_zero (Nat.le_zero.mp h)
    subst this
    simp [chunksAux]
  | succ fuel ih =>
    intro l acc h
    cases l with
    | nil => simp [chunksAux]
    | cons a t =>
      have hdrop : ((a :: t).drop n).length ≤ fuel := by
        rw [List.length_drop]
        have h1 : t.length ≤ fuel := by simpa using h
        have h2 : (a :: t).length - n ≤ t.length := by
          simp only [List.length_cons]
          omega
        exact le_trans h2 h1
      calc (chunksAux n (fuel + 1) (a :: t)).foldl (fun a c => a ++ c) acc
          = (chunksAux n fuel ((a :: t).drop n)).foldl (fun a c => a ++ c)
              (acc ++ (a :: t).take n) := by rw [chunksAux, List.foldl_cons]
        _ = (acc ++ (a :: t).take n) ++ (a :: t).drop n := ih _ _ hdrop
        _ = acc ++ (a :: t) := by rw [List.append_assoc, List.take_append_drop]

theorem chunks_foldl_append {α : Type} (n : Nat) (hn : 0 < n) (l : List α) :
    (chunks n l).foldl (fun a c => a ++ c) [] = l := by
  unfold chunks
  rw [if_neg (by simpa using Nat.pos_iff_ne_zero.mp hn)]
  simpa using chunksAux_foldl_append n hn l.length l [] le_rfl

/-- The 4096-byte incremental reads feed SHA-256 exactly the file's bytes. -/
theorem calculate_file_hash_eq_sha256hex (content : List Nat) :
    calculate_file_hash content = sha256hex content := by
  unfold calculate_file_hash
  rw [chunks_foldl_append 4096 (by norm_num)]

theorem shaRound_length (st : List Nat) (kw : Nat × Nat) :
    (shaRound st kw).length = st.length := by
  unfold shaRound
  split <;> simp

theorem foldl_shaRound_length (l : List (Nat × Nat)) :
    ∀ st : List Nat, (l.foldl shaRound st).length = st.length := by
  induction l with
  | nil => intro st; rfl
  | cons a t ih => intro st; rw [List.foldl_cons, ih, shaRound_length]

theorem shaCompress_length (hv block : List Nat) :
    (shaCompress hv block).length = hv.length := by
  unfold shaCompress
  simp [foldl_shaRound_length]

theorem foldl_shaCompress_length (bs : List (List Nat)) :
    ∀ hv : List Nat, (bs.foldl shaCompress hv).length = hv.length := by
  induction bs with
  | nil => intro hv; rfl
  | cons b t ih => intro hv; rw [List.foldl_cons, ih, shaCompress_length]

theorem sha256_length (msg : List Nat) : (sha256 msg).length = 8 := by
  unfold sha256
  rw [foldl_shaCompress_length]
  rfl

theorem wordHex_length (w : Nat) : (wordHex w).length = 8 := by
  simp [wordHex]

theorem flatten_map_wordHex_length (ws : List Nat) :
    ((ws.map wordHex).flatten).length = 8 * ws.length := by
  induction ws with
  | nil => rfl
  | cons w t ih =>
    simp only [List.map_cons, List.flatten_cons, List.length_append, ih,
      wordHex_length, List.length_cons]
    ring

theorem sha256hex_length (msg : List Nat) : (sha256hex msg).length = 64 := by
  unfold sha256hex
  rw [flatten_map_wordHex_length, sha256_length]

theorem hexDigit_isLowerHex : ∀ n, n < 16 → isLowerHex (hexDigit n) = true := by
  decide

theorem hexDigit_isSecureChar : ∀ n, n < 16 → isSecureChar (hexDigit n) = true := by
  decide

theorem mem_wordHex_isLowerHex {c : Char} {w : Nat} (h : c ∈ wordHex w) :
    isLowerHex c = true := by
  unfold wordHex at h
  rw [List.mem_map] at h
  obtain ⟨i, _, rfl⟩ := h
  exact hexDigit_isLowerHex _ (Nat.mod_lt _ (by norm_num))

theorem mem_sha256hex_isLowerHex {c : Char} {msg : List Nat}
    (h : c ∈ sha256hex msg) : isLowerHex c = true := by
  unfold sha256hex at h
  rw [List.mem_flatten] at h
  obtain ⟨l, hl, hc⟩ := h
  rw [List.mem_map] at hl
  obtain ⟨w, _, rfl⟩ := hl
  exact mem_wordHex_isLowerHex hc

theorem hexDigit_inj : ∀ a, a < 16 → ∀ b, b < 16 → hexDigit a = hexDigit b → a = b := by
  decide

theorem byteHex_length (b : Nat) : (byteHex b).length = 2 := rfl

theorem byteHex_inj {a b : Nat} (ha : a < 256) (hb : b < 256)
    (h : byteHex a = byteHex b) : a = b := by
  unfold byteHex at h
  rw [Nat.mod_eq_of_lt ha, Nat.mod_eq_of_lt hb] at h
  have hd1 : hexDigit (a / 16) = hexDigit (b / 16) := by
    exact congrArg (fun l => l.headI) h
  have hd2 : hexDigit (a % 16) = hexDigit (b % 16) := by
    exact congrArg (fun l => l.getLastI) h
  have e1 : a / 16 = b / 16 :=
    hexDigit_inj _ (Nat.div_lt_of_lt_mul (by omega)) _ (Nat.div_lt_of_lt_mul (by omega)) hd1
  have e2 : a % 16 = b % 16 :=
    hexDigit_inj _ (Nat.mod_lt _ (by norm_num)) _ (Nat.mod_lt _ (by norm_num)) hd2
  omega

theorem token_hex_cons (b : Nat) (t : List Nat) :
    token_hex (b :: t) = byteHex b ++ token_hex t := by
  simp [token_hex]

theorem token_hex_length (bs : List Nat) : (token_hex bs).length = 2 * bs.length := by
  induction bs with
  | nil => rfl
  | cons b t ih =>
    rw [token_hex_cons, List.length_append, byteHex_length, ih, List.length_cons]
    ring

theorem token_hex_inj : ∀ bs1 bs2 : List Nat, bs1.length = bs2.length →
    (∀ b ∈ bs1, b < 256) → (∀ b ∈ bs2, b < 256) →
    token_hex bs1 = token_hex bs2 → bs1 = bs2 := by
  intro bs1
  induction bs1 with
  | nil =>
    intro bs2 hlen _ _ _
    exact (List.eq_nil_of_length_eq_zero hlen.symm).symm
  | cons a t ih =>
    intro bs2 hlen hv1 hv2 heq
    cases bs2 with
    | nil => exact absurd hlen (by simp)
    | cons b u =>
      rw [token_hex_cons, token_hex_cons] at heq
      have hinj := List.append_inj heq (by rw [byteHex_length, byteHex_length])
      have hab : a = b :=
        byteHex_inj (hv1 a (by simp)) (hv2 b (by simp)) hinj.1
      have htu : t = u := by
        refine ih u (by simpa using hlen) ?_ ?_ hinj.2
        · exact fun x hx => hv1 x (List.mem_cons_of_mem _ hx)
        · exact fun x hx => hv2 x (List.mem_cons_of_mem _ hx)
      rw [hab, htu]

theorem mem_byteHex_isLowerHex {c : Char} {b : Nat} (h : c ∈ byteHex b) :
    isLowerHex c = true := by
  unfold byteHex at h
  have h1 : b % 256 / 16 < 16 := Nat.div_lt_of_lt_mul (by omega)
  have h2 : b % 16 < 16 := Nat.mod_lt _ (by norm_num)
  simp only [List.mem_cons, List.not_mem_nil, or_false] at h
  rcases h with rfl | rfl
  · exact hexDigit_isLowerHex _ h1
  · exact hexDigit_isLowerHex _ h2

theorem mem_token_hex_isLowerHex {c : Char} {bs : List Nat}
    (h : c ∈ token_hex bs) : isLowerHex c = true := by
  unfold token_hex at h
  rw [List.mem_flatten] at h
  obtain ⟨l, hl, hc⟩ := h
  rw [List.mem_map] at hl
  obtain ⟨b, _, rfl⟩ := hl
  exact mem_byteHex_isLowerHex hc

theorem mem_byteHex_isSecureChar {c : Char} {b : Nat} (h : c ∈ byteHex b) :
    isSecureChar c = true := by
  unfold byteHex at h
  have h1 : b % 256 / 16 < 16 := Nat.div_lt_of_lt_mul (by omega)
  have h2 : b % 16 < 16 := Nat.mod_lt _ (by norm_num)
  simp only [List.mem_cons, List.not_mem_nil, or_false] at h
  rcases h with rfl | rfl
  · exact hexDigit_isSecureChar _ h1
  · exact hexDigit_isSecureChar _ h2

theorem mem_token_hex_isSecureChar {c : Char} {bs : List Nat}
    (h : c ∈ token_hex bs) : isSecureChar c = true := by
  unfold token_hex at h
  rw [List.mem_flatten] at h
  obtain ⟨l, hl, hc⟩ := h
  rw [List.mem_map] at hl
  obtain ⟨b, _, rfl⟩ := hl
  exact mem_byteHex_isSecureChar hc

theorem mem_dropWhile {p : Char → Bool} {s : Str} {c : Char}
    (h : c ∈ s.dropWhile p) : c ∈ s := by
  induction s with
  | nil => simp at h
  | cons a t ih =>
    rw [List.dropWhile_cons] at h
    by_cases hp : p a
    · rw [if_pos hp] at h
      exact List.mem_cons_of_mem _ (ih h)
    · rw [if_neg hp] at h
      exact h

theorem mem_stripWhile {p : Char → Bool} {s : Str} {c : Char}
    (h : c ∈ stripWhile p s) : c ∈ s := by
  unfold stripWhile at h
  rw [List.mem_reverse] at h
  have h1 := mem_dropWhile h
  rw [List.mem_reverse] at h1
  exact mem_dropWhile h1

/-- Every character of the sanitized filename lies in `[A-Za-z0-9._-]`. -/
theorem secure_filename_chars {c : Char} {f : Str}
    (h : c ∈ secure_filename f) : isSecureChar c = true := by
  unfold secure_filename at h
  have h1 := mem_stripWhile h
  exact (List.mem_filter.mp h1).2

theorem mem_splitext_fst {c : Char} {p : Str} (h : c ∈ (splitext p).1) : c ∈ p := by
  simp only [splitext] at h
  split at h
  · split at h
    · exact List.mem_of_mem_take h
    · exact h
  · exact h

theorem mem_splitext_snd {c : Char} {p : Str} (h : c ∈ (splitext p).2) : c ∈ p := by
  simp only [splitext] at h
  split at h
  · split at h
    · exact List.mem_of_mem_drop h
    · cases h
  · cases h

/-- Every character of the truncated-or-defaulted base is in `[A-Za-z0-9._-]`. -/
theorem basePart_chars {c : Char} {f : Str} (h : c ∈ basePart f) :
    isSecureChar c = true := by
  simp only [basePart] at h
  split at h
  · exact secure_filename_chars (mem_splitext_fst (List.mem_of_mem_take h))
  · have h4 : c ∈ ['f', 'i', 'l', 'e'] := h
    simp only [List.mem_cons, List.not_mem_nil, or_false] at h4
    rcases h4 with rfl | rfl | rfl | rfl <;> rfl

theorem basePart_length_le (f : Str) : (basePart f).length ≤ 50 := by
  simp only [basePart]
  split
  · simp
  · decide

theorem basePart_length_pos (f : Str) : 1 ≤ (basePart f).length := by
  simp only [basePart]
  split
  · rename_i hne
    have : (splitext (secure_filename f)).1.length ≠ 0 := by
      simpa [List.length_eq_zero] using hne
    simp only [List.length_take]
    omega
  · decide

/-- `generate_secure_filename` is the base, the timestamp, the random token
and the (unchanged) extension, joined by underscores. -/
theorem generate_secure_filename_eq (ts : Str) (bs : List Nat) (f : Str) :
    generate_secure_filename ts bs f =
      basePart f ++ str "_" ++ ts ++ str "_" ++ token_hex bs ++
        (splitext (secure_filename f)).2 := rfl

theorem reasonExt_head (f : Str) : (reasonExt f).head? = some 'E' := rfl

theorem reasonMime_head (m : Str) : (reasonMime m).head? = some 'M' := rfl

theorem reasonMismatch_head (f m : Str) : (reasonMismatch f m).head? = some 'E' := rfl

theorem reasonExt_ne_reasonMime (f m : Str) : reasonExt f ≠ reasonMime m := by
  intro h
  have h1 := reasonExt_head f
  rw [h, reasonMime_head] at h1
  exact absurd h1 (by decide)

theorem reasonMime_ne_reasonMismatch (m f m2 : Str) :
    reasonMime m ≠ reasonMismatch f m2 := by
  intro h
  have h1 := reasonMime_head m
  rw [h, reasonMismatch_head] at h1
  exact absurd h1 (by decide)

theorem reasonExt_ne_reasonMismatch (f m : Str) : reasonExt f ≠ reasonMismatch f m := by
  intro h
  have h2 : str "Extension " ++ (extLow f ++ str " not allowed") =
      str "Extension " ++ (extLow f ++ (str " does not match detected MIME type " ++ m)) := by
    simpa only [reasonExt, reasonMismatch, List.append_assoc] using h
  have h3 := List.append_cancel_left (List.append_cancel_left h2)
  have hL : ((str " not allowed").drop 1).head? = some 'n' := rfl
  rw [h3] at hL
  have hR : ((str " does not match detected MIME type " ++ m).drop 1).head? = some 'd' := rfl
  rw [hR] at hL
  exact absurd hL (by decide)

/-- Every character of a generated storage name is in `[A-Za-z0-9._-]`
(provided the timestamp's characters are, as `%Y%m%d_%H%M%S` output is). -/
theorem generate_secure_filename_chars {ts : Str} {bs : List Nat} {f : Str}
    {c : Char} (hts : ∀ c ∈ ts, isSecureChar c = true)
    (hc : c ∈ generate_secure_filename ts bs f) : isSecureChar c = true := by
  rw [generate_secure_filename_eq] at hc
  simp only [List.append_assoc, List.mem_append] at hc
  rcases hc with h | h | h | h | h | h
  · exact basePart_chars h
  · have h4 : c ∈ ['_'] := h
    simp only [List.mem_cons, List.not_mem_nil, or_false] at h4
    subst h4; rfl
  · exact hts c h
  · have h4 : c ∈ ['_'] := h
    simp only [List.mem_cons, List.not_mem_nil, or_false] at h4
    subst h4; rfl
  · exact mem_token_hex_isSecureChar h
  · exact secure_filename_chars (mem_splitext_snd h)

/-- A success outcome can only come out of the post-write stages, so the
bytes were written. -/
theorem upload_success_saved (req : UploadRequest) (env : UploadEnv) :
    (upload_file req env).success = true → (upload_file req env).fileSaved = true := by
  simp only [upload_file, upload_post_write]
  repeat' split
  all_goals simp

/-- When the bytes were written, the handler's outcome is that of the
post-write stages on the generated storage name. -/
theorem upload_file_saved (req : UploadRequest) (env : UploadEnv)
    (hsaved : (upload_file req env).fileSaved = true) :
    upload_file req env =
      upload_post_write req env
        (generate_secure_filename env.timestamp env.randomBytes req.filename) := by
  by_cases hc1 : req.hasFile = false
  · simp [upload_file, hc1] at hsaved
  by_cases hc2 : req.filename = []
  · simp [upload_file, hc1, hc2] at hsaved
  by_cases hc3 : upload_ext_gate req.filename = false
  · simp [upload_file, hc1, hc2, hc3] at hsaved
  by_cases hc4 : is_path_safe env.cwd
      (pjoin env.uploadFolder
        (generate_secure_filename env.timestamp env.randomBytes req.filename))
      env.uploadFolder = false
  · simp [upload_file, hc1, hc2, hc3, hc4] at hsaved
  · simp [upload_file, hc1, hc2, hc3, hc4]

/-- C1: PathGuard diverges from canonical containment: with the storage root
`/srv/uploads`, the candidate `/srv/uploads_evil/x` — already in canonical
absolute form and outside the root — is accepted by `is_path_safe`, because
the check is a plain string-prefix test on `os.path.abspath` outputs rather
than the root-or-descendant relation the claim states. -/
theorem is_path_safe_sibling_escape :
    is_path_safe (str "/") (str "/srv/uploads_evil/x") (str "/srv/uploads") = true ∧
    isWithinRoot (str "/") (str "/srv/uploads_evil/x") (str "/srv/uploads") = false := by
  decide

/-- C2: after any run of the upload handler, the generated storage path exists
exactly when the upload was accepted; in particular every rejection produced
after the bytes were written (size, sniffing, policy, scan, or an unexpected
exception) deletes the stored file before the response, and no rejection path
leaves a file behind. -/
theorem upload_cleanup_invariant (req : UploadRequest) (env : UploadEnv) :
    (upload_file req env).fileExists = (upload_file req env).success := by
  simp only [upload_file, upload_post_write]
  repeat' split
  all_goals rfl

/-- C3: the type policy is the ordered conjunction of its three checks —
extension allow-listed, sniffed MIME type a key of the allow-list mapping,
extension registered for that MIME type — accepting exactly when all three
hold (with no reason), short-circuiting to the distinct reason of the first
failing check otherwise; the three reason strings are pairwise distinct. -/
theorem is_allowed_file_type_spec (f m : Str) :
    ((is_allowed_file_type f m).1 = true ↔
      extLow f ∈ ALLOWED_EXTENSIONS ∧
        ∃ exts, lookupAL ALLOWED_MIME_TYPES m = some exts ∧ extLow f ∈ exts)
    ∧ ((is_allowed_file_type f m).1 = true → (is_allowed_file_type f m).2 = none)
    ∧ (extLow f ∉ ALLOWED_EXTENSIONS →
        (is_allowed_file_type f m).2 = some (reasonExt f))
    ∧ (extLow f ∈ ALLOWED_EXTENSIONS →
        lookupAL ALLOWED_MIME_TYPES m = none →
        (is_allowed_file_type f m).2 = some (reasonMime m))
    ∧ (∀ exts, extLow f ∈ ALLOWED_EXTENSIONS →
        lookupAL ALLOWED_MIME_TYPES m = some exts →
        extLow f ∉ exts →
        (is_allowed_file_type f m).2 = some (reasonMismatch f m))
    ∧ reasonExt f ≠ reasonMime m
    ∧ reasonExt f ≠ reasonMismatch f m
    ∧ reasonMime m ≠ reasonMismatch f m := by
  unfold is_allowed_file_type
  by_cases hext : extLow f ∈ ALLOWED_EXTENSIONS
  · cases hlk : lookupAL ALLOWED_MIME_TYPES m with
    | none =>
      simp [hext, hlk, reasonExt_ne_reasonMime f m,
        reasonExt_ne_reasonMismatch f m, reasonMime_ne_reasonMismatch m f m]
    | some exts =>
      by_cases hmem : extLow f ∈ exts
      · simp [hext, hlk, hmem, reasonExt_ne_reasonMime f m,
          reasonExt_ne_reasonMismatch f m, reasonMime_ne_reasonMismatch m f m]
      · simp [hext, hlk, hmem, reasonExt_ne_reasonMime f m,
          reasonExt_ne_reasonMismatch f m, reasonMime_ne_reasonMismatch m f m]
  · simp [hext, reasonExt_ne_reasonMime f m, reasonExt_ne_reasonMismatch f m,
      reasonMime_ne_reasonMismatch m f m]

theorem is_allowed_file_type_spec_witness :
    (is_allowed_file_type (str "photo.jpg") (str "image/jpeg")).2 = none :=
  (is_allowed_file_type_spec (str "photo.jpg") (str "image/jpeg")).2.1 (by decide)

/-- C10: the pre-write extension gate and every extension comparison inside
the type policy read the filename only through
`os.path.splitext(filename)[1].lower()`, so two filenames with the same
lowercased extension — in particular an upper- or mixed-case variant of an
allowed extension and its lowercase form — pass or fail those checks
identically. -/
theorem extension_checks_case_insensitive (f g m : Str)
    (h : extLow f = extLow g) :
    upload_ext_gate f = upload_ext_gate g ∧
    is_allowed_file_type f m = is_allowed_file_type g m := by
  unfold upload_ext_gate is_allowed_file_type reasonExt reasonMismatch
  rw [h]
  exact ⟨rfl, rfl⟩

theorem extension_checks_case_insensitive_witness :
    upload_ext_gate (str "PHOTO.JPG") = upload_ext_gate (str "photo.jpg") ∧
    is_allowed_file_type (str "PHOTO.JPG") (str "image/jpeg") =
      is_allowed_file_type (str "photo.jpg") (str "image/jpeg") :=
  extension_checks_case_insensitive (str "PHOTO.JPG") (str "photo.jpg")
    (str "image/jpeg") (by decide)

/-- C4 counterexample: the source reattaches the extension exactly as the
sanitized filename had it, with its case preserved — on input `A.JPG` the
generated storage name ends in `.JPG` and not in the lower-cased `.jpg` the
claim requires. -/
theorem generate_secure_filename_keeps_ext_case :
    endsWithL (generate_secure_filename (str "20240101_000000")
      [0, 0, 0, 0, 0, 0, 0, 0] (str "A.JPG")) (str ".JPG") = true ∧
    endsWithL (generate_secure_filename (str "20240101_000000")
      [0, 0, 0, 0, 0, 0, 0, 0] (str "A.JPG")) (str ".jpg") = false := by
  decide

/-- C4 (amended): `generate_secure_filename` strips path components and keeps
the base within the safe character set, truncates the base to 50 characters,
substitutes the default base `file` when the sanitized base is empty, appends
the timestamp and the hex-encoded 8-byte random token, and reattaches the
extension of the sanitized name unchanged (case preserved, not lower-cased). -/
theorem generate_secure_filename_algorithm (ts : Str) (bs : List Nat) (f : Str)
    (hts : ∀ c ∈ ts, isSecureChar c = true) (hbs : bs.length = 8) :
    generate_secure_filename ts bs f =
      basePart f ++ str "_" ++ ts ++ str "_" ++ token_hex bs ++
        (splitext (secure_filename f)).2
    ∧ (basePart f).length ≤ 50
    ∧ ((splitext (secure_filename f)).1 = [] → basePart f = str "file")
    ∧ (token_hex bs).length = 16
    ∧ (∀ c ∈ token_hex bs, isLowerHex c = true)
    ∧ (∀ c ∈ generate_secure_filename ts bs f, c ≠ '/') := by
  refine ⟨generate_secure_filename_eq ts bs f, basePart_length_le f, ?_, ?_,
    fun c hc => mem_token_hex_isLowerHex hc, ?_⟩
  · intro hempty
    simp [basePart, hempty]
  · rw [token_hex_length, hbs]
  · intro c hc hslash
    have hsec := generate_secure_filename_chars hts hc
    rw [hslash] at hsec
    exact absurd hsec (by decide)

theorem generate_secure_filename_algorithm_witness :
    generate_secure_filename (str "20240101_000000") [0, 1, 2, 3, 4, 5, 6, 7]
        (str "photo.jpg") =
      basePart (str "photo.jpg") ++ str "_" ++ str "20240101_000000" ++ str "_" ++
        token_hex [0, 1, 2, 3, 4, 5, 6, 7] ++
        (splitext (secure_filename (str "photo.jpg"))).2 :=
  (generate_secure_filename_algorithm (str "20240101_000000")
    [0, 1, 2, 3, 4, 5, 6, 7] (str "photo.jpg") (by decide) (by decide)).1

/-- C5: a generated storage name is never `.`, `..` or empty and consists only
of characters in `[A-Za-z0-9._-]`; two calls on the same input that draw
different random tokens produce different storage names, both satisfying the
safe-character invariant. -/
theorem generate_secure_filename_safe_unique (f ts : Str) (bs1 bs2 : List Nat)
    (hts : ∀ c ∈ ts, isSecureChar c = true)
    (h1 : bs1.length = 8) (h2 : bs2.length = 8)
    (hv1 : ∀ b ∈ bs1, b < 256) (hv2 : ∀ b ∈ bs2, b < 256)
    (hne : bs1 ≠ bs2) :
    generate_secure_filename ts bs1 f ≠ str "." ∧
    generate_secure_filename ts bs1 f ≠ str ".." ∧
    generate_secure_filename ts bs1 f ≠ [] ∧
    (∀ c ∈ generate_secure_filename ts bs1 f, isSecureChar c = true) ∧
    (∀ c ∈ generate_secure_filename ts bs2 f, isSecureChar c = true) ∧
    generate_secure_filename ts bs1 f ≠ generate_secure_filename ts bs2 f := by
  have hlen : ∀ bs : List Nat, bs.length = 8 →
      19 ≤ (generate_secure_filename ts bs f).length := by
    intro bs hbs
    rw [generate_secure_filename_eq]
    simp only [List.length_append, token_hex_length, hbs]
    have hbp := basePart_length_pos f
    have hu : (str "_").length = 1 := rfl
    omega
  refine ⟨?_, ?_, ?_, fun c hc => generate_secure_filename_chars hts hc,
    fun c hc => generate_secure_filename_chars hts hc, ?_⟩
  · intro h
    have h19 := hlen bs1 h1
    rw [h] at h19
    exact absurd h19 (by decide)
  · intro h
    have h19 := hlen bs1 h1
    rw [h] at h19
    exact absurd h19 (by decide)
  · intro h
    have h19 := hlen bs1 h1
    rw [h] at h19
    exact absurd h19 (by decide)
  · intro h
    rw [generate_secure_filename_eq, generate_secure_filename_eq] at h
    simp only [List.append_assoc] at h
    have h3 := List.append_cancel_left (List.append_cancel_left
      (List.append_cancel_left (List.append_cancel_left h)))
    have h4 := List.append_cancel_right h3
    exact hne (token_hex_inj bs1 bs2 (by rw [h1, h2]) hv1 hv2 h4)

theorem generate_secure_filename_safe_unique_witness :
    generate_secure_filename (str "20240101_000000") [0, 1, 2, 3, 4, 5, 6, 7]
        (str "photo.jpg") ≠
    generate_secure_filename (str "20240101_000000") [8, 9, 10, 11, 12, 13, 14, 15]
        (str "photo.jpg") :=
  (generate_secure_filename_safe_unique (str "photo.jpg") (str "20240101_000000")
    [0, 1, 2, 3, 4, 5, 6, 7] [8, 9, 10, 11, 12, 13, 14, 15]
    (by decide) (by decide) (by decide) (by decide) (by decide) (by decide)).2.2.2.2.2

/-- C6: when the size re-measured from disk exceeds the ceiling after the
bytes were written, the size guard reports it as over limit with the
re-measured size, the handler rejects with the oversize reason carrying that
size, and no file remains on disk; the outcome never depends on the
client-declared size. -/
theorem oversize_rejected_no_residue (req : UploadRequest) (env : UploadEnv)
    (n : Nat) (hsize : env.diskSize = some n) (hover : MAX_FILE_SIZE < n)
    (hsaved : (upload_file req env).fileSaved = true) :
    validate_file_size env.diskSize MAX_FILE_SIZE = (false, n) ∧
    (upload_file req env).status = 400 ∧
    (upload_file req env).success = false ∧
    (upload_file req env).reason = some (Reason.oversize n) ∧
    (upload_file req env).fileExists = false ∧
    (∀ d, upload_file { req with declaredSize := d } env = upload_file req env) := by
  have hval : validate_file_size env.diskSize MAX_FILE_SIZE = (false, n) := by
    rw [hsize]
    simp [validate_file_size, Nat.not_le.mpr hover]
  have hind : ∀ d, upload_file { req with declaredSize := d } env = upload_file req env := by
    intro d
    cases req
    rfl
  have heq := upload_file_saved req env hsaved
  refine ⟨hval, ?_, ?_, ?_, ?_, hind⟩ <;> rw [heq] <;> simp [upload_post_write, hval]

theorem oversize_rejected_no_residue_witness :
    (upload_file reqW envOversize).reason =
      some (Reason.oversize (MAX_FILE_SIZE + 1)) ∧
    (upload_file reqW envOversize).fileExists = false :=
  ⟨(oversize_rejected_no_residue reqW envOversize (MAX_FILE_SIZE + 1)
      (by decide) (by decide) (by decide)).2.2.2.1,
   (oversize_rejected_no_residue reqW envOversize (MAX_FILE_SIZE + 1)
      (by decide) (by decide) (by decide)).2.2.2.2.1⟩

/-- C7: every acceptance reports as `hash` exactly
`calculate_file_hash` of the stored bytes, which is the SHA-256 digest of the
full content (the 4096-byte reads concatenate to the whole file), a 64-digit
lowercase hexadecimal string — so recomputing the digest from the stored
bytes reproduces the reported hash. -/
theorem accepted_hash_roundtrip (req : UploadRequest) (env : UploadEnv)
    (h : (upload_file req env).success = true) :
    ∃ d : StoredData, (upload_file req env).data = some d ∧
      d.hash = calculate_file_hash env.content ∧
      calculate_file_hash env.content = sha256hex env.content ∧
      d.hash.length = 64 ∧ ∀ c ∈ d.hash, isLowerHex c = true := by
  have hsaved := upload_success_saved req env h
  rw [upload_file_saved req env hsaved] at h ⊢
  by_cases hc5 : (validate_file_size env.diskSize MAX_FILE_SIZE).1 = false
  · simp [upload_post_write, hc5] at h
  · cases hmg : get_file_magic_type env.magicCall with
    | none => simp [upload_post_write, hc5, hmg] at h
    | some dm =>
      by_cases hdm : dm = []
      · simp [upload_post_write, hc5, hmg, hdm] at h
      · by_cases hc6 : (is_allowed_file_type req.filename dm).1 = false
        · simp [upload_post_write, hc5, hmg, hdm, hc6] at h
        · by_cases hc7 : (scan_file_for_viruses env).clean = false
          · simp [upload_post_write, hc5, hmg, hdm, hc6, hc7] at h
          · by_cases hc8 : env.hashRaises
            · simp [upload_post_write, hc5, hmg, hdm, hc6, hc7, hc8] at h
            · refine ⟨⟨generate_secure_filename env.timestamp env.randomBytes
                  req.filename, (validate_file_size env.diskSize MAX_FILE_SIZE).2,
                  dm, calculate_file_hash env.content⟩, ?_, rfl,
                calculate_file_hash_eq_sha256hex env.content, ?_, ?_⟩
              · simp [upload_post_write, hc5, hmg, hdm, hc6, hc7, hc8]
              · rw [calculate_file_hash_eq_sha256hex]
                exact sha256hex_length env.content
              · intro c hc
                rw [calculate_file_hash_eq_sha256hex] at hc
                exact mem_sha256hex_isLowerHex hc

theorem accepted_hash_roundtrip_witness :
    ∃ d : StoredData, (upload_file reqW envAccept).data = some d ∧
      d.hash = calculate_file_hash envAccept.content ∧
      calculate_file_hash envAccept.content = sha256hex envAccept.content ∧
      d.hash.length = 64 ∧ ∀ c ∈ d.hash, isLowerHex c = true :=
  accepted_hash_roundtrip reqW envAccept (by decide)

/-- C8: when the libmagic call raises, the sniffer reports `none` rather than
a substituted type, and — the bytes being already written and the size check
passing — the handler rejects with the undetectable-type reason, deleting the
stored file, instead of continuing with a default MIME type. -/
theorem undetectable_type_rejected (req : UploadRequest) (env : UploadEnv)
    (e : Str) (hm : env.magicCall = Except.error e)
    (hsz : (validate_file_size env.diskSize MAX_FILE_SIZE).1 = true)
    (hsaved : (upload_file req env).fileSaved = true) :
    get_file_magic_type env.magicCall = none ∧
    (upload_file req env).status = 400 ∧
    (upload_file req env).success = false ∧
    (upload_file req env).reason = some Reason.undetectableType ∧
    (upload_file req env).fileExists = false := by
  have hmg : get_file_magic_type env.magicCall = none := by
    rw [hm]; rfl
  rw [upload_file_saved req env hsaved]
  refine ⟨hmg, ?_, ?_, ?_, ?_⟩ <;> simp [upload_post_write, hsz, hmg]

theorem undetectable_type_rejected_witness :
    (upload_file reqW envNoMagic).reason = some Reason.undetectableType ∧
    (upload_file reqW envNoMagic).fileExists = false :=
  ⟨(undetectable_type_rejected reqW envNoMagic (str "magic failed")
      (by decide) (by decide) (by decide)).2.2.2.1,
   (undetectable_type_rejected reqW envNoMagic (str "magic failed")
      (by decide) (by decide) (by decide)).2.2.2.2⟩

/-- C9: the size comparison is inclusive — a file whose on-disk size equals
the ceiling exactly is within limit — and a failing `os.path.getsize` yields
`(False, 0)`, upon which the pipeline rejects rather than accepts. -/
theorem validate_file_size_boundary (m : Nat) (req : UploadRequest)
    (env : UploadEnv) :
    validate_file_size (some m) m = (true, m) ∧
    validate_file_size none m = (false, 0) ∧
    (env.diskSize = none → (upload_file req env).success = false) := by
  refine ⟨by simp [validate_file_size], rfl, ?_⟩
  intro hnone
  by_contra hs
  have hs2 : (upload_file req env).success = true := by
    cases h : (upload_file req env).success
    · exact absurd h hs
    · rfl
  have hsaved := upload_success_saved req env hs2
  rw [upload_file_saved req env hsaved] at hs2
  simp [upload_post_write, validate_file_size, hnone] at hs2

theorem validate_file_size_boundary_witness :
    validate_file_size (some 5) 5 = (true, 5) ∧
    validate_file_size none 5 = (false, 0) ∧
    (upload_file reqW envNoSize).success = false :=
  ⟨(validate_file_size_boundary 5 reqW envNoSize).1,
   (validate_file_size_boundary 5 reqW envNoSize).2.1,
   (validate_file_size_boundary 5 reqW envNoSize).2.2 (by decide)⟩

end UploadServer
